import Mathlib

/-!
Shallow embedding of the command-processing core of
`src/LX200WifiBridge.cpp` (LX200WifiBridge repository): command framing,
dispatch with app-specific quirk overrides, the Teensy handshake and the
Teensy response reader.

Modelling conventions:
* Arduino `String` values are modelled as `List Char`.
* The Teensy serial link is modelled by a `TeensyEnv`: the bytes that
  arrive from the Teensy within the read windows (an empty list stands
  for the first-byte timeout of `readTeensyResponse`, a list exhausted
  before a terminator stands for the phase-2 timeout), plus a flag
  telling whether the handshake acknowledgment byte arrives within
  `TEENSY_ACK_TIMEOUT`.
* Time itself is abstracted away: the busy-wait loops of the source are
  bounded polls whose only observable effect is whether bytes arrived in
  time, which is exactly what `TeensyEnv` records.
-/

namespace LX200

/-- Byte `0x06`, the mount-type probe Stellarium Mobile sends outside of
framing (`handleLX200Client`, line 221). -/
def probeByte : Char := '\x06'

/-- The fixed set of commands that must produce no client reply
(`isNoResponseCommand`, lines 54-72 of `LX200WifiBridge.cpp`). -/
def isNoResponseCommand (cmd : List Char) : Bool :=
  decide (cmd = [':', 'M', 'e', '#']) ||
  decide (cmd = [':', 'M', 'n', '#']) ||
  decide (cmd = [':', 'M', 's', '#']) ||
  decide (cmd = [':', 'M', 'w', '#']) ||
  decide (cmd = [':', 'Q', 'e', '#']) ||
  decide (cmd = [':', 'Q', 'n', '#']) ||
  decide (cmd = [':', 'Q', 's', '#']) ||
  decide (cmd = [':', 'Q', 'w', '#']) ||
  decide (cmd = [':', 'R', 'C', '#']) ||
  decide (cmd = [':', 'R', 'F', '#']) ||
  decide (cmd = [':', 'R', 'G', '#']) ||
  decide (cmd = [':', 'R', 'M', '#']) ||
  decide (cmd = [':', 'R', 'S', '#']) ||
  decide (cmd = [':', 'W', '1', '#']) ||
  decide (cmd = [':', 'C', 'S', '#'])

/-- Local-answer table for product-identification commands
(`checkForAppSpecificCmds`, lines 75-87): a non-empty result is answered
without touching the Teensy. -/
def checkForAppSpecificCmds (cmd : List Char) : List Char :=
  if cmd = [':', 'G', 'V', 'P', '#'] then "OnStepX.DDScopeX#".data
  else if cmd = [':', 'G', 'V', 'N', '#'] then "2.0#".data
  else if cmd = [':', 'G', 'V', 'D', '#'] then "May 2025#".data
  else if cmd = [':', 'G', 'V', 'T', '#'] then "08:02:00#".data
  else []

/-- Handshake acknowledgment timeout in milliseconds
(`TEENSY_ACK_TIMEOUT`, line 45). -/
def TEENSY_ACK_TIMEOUT : Nat := 500

/-- First-byte timeout of the response reader in milliseconds
(the `2300` on line 142). -/
def FIRST_BYTE_TIMEOUT : Nat := 2300

/-- Environment describing one exchange with the Teensy over the serial
link: whether the handshake acknowledgment byte arrives within
`TEENSY_ACK_TIMEOUT`, and which response bytes arrive within the read
windows of `readTeensyResponse` (`[]` means the first-byte timeout
expired with nothing available). -/
structure TeensyEnv where
  ackArrives : Bool
  response : List Char

/-- Outcome of the handshake poll loop. -/
inductive HandshakeOutcome where
  | acked
  | timedOut
deriving DecidableEq

/-- Handshake with the Teensy (`handshakeTeensy`, lines 121-134): send
`L`, poll up to `TEENSY_ACK_TIMEOUT` for `K`.  The source function
returns `void`: whether the poll loop saw the acknowledgment or expired,
control simply returns to the caller, with no retry and no abort. -/
def handshakeTeensy (env : TeensyEnv) : HandshakeOutcome :=
  if env.ackArrives then HandshakeOutcome.acked else HandshakeOutcome.timedOut

/-- Phase-2 accumulation loop of `readTeensyResponse` (lines 152-165):
skip `K`, LF and CR as noise, append every other byte, and return as
soon as a `#` has been appended.  An exhausted input list models the
350 ms phase-2 window expiring, in which case the accumulated partial
text is returned. -/
def readTeensyLoop : List Char → List Char → List Char
  | [], tResponse => tResponse
  | rc :: rest, tResponse =>
    if rc = 'K' ∨ rc = '\n' ∨ rc = '\r' then readTeensyLoop rest tResponse
    else if rc = '#' then tResponse ++ [rc]
    else readTeensyLoop rest (tResponse ++ [rc])

/-- Response reader (`readTeensyResponse`, lines 137-169): if no byte at
all arrives within `FIRST_BYTE_TIMEOUT` (modelled by an empty input),
return the empty string; otherwise run the phase-2 loop. -/
def readTeensyResponse (input : List Char) : List Char :=
  if input = [] then [] else readTeensyLoop input []

/-- Arduino `String.indexOf`: position of the first occurrence of a
character, `none` standing for the source's `-1`. -/
def indexOfChar : List Char → Char → Option Nat
  | [], _ => none
  | c :: rest, t => if c = t then some 0 else (indexOfChar rest t).map (· + 1)

/-- Result of `processLX200Command`: the reply text it returns, plus the
command strings it printed to the Teensy serial port. -/
structure ProcessResult where
  response : List Char
  teensyWrites : List (List Char)

/-- Command processing (`processLX200Command`, lines 174-197): answer
from the local table if possible; otherwise apply the timezone quirk
truncation exactly when the command equals `:SG+06.0#`, run the
handshake (whose outcome is ignored), print the possibly-truncated
command to the Teensy exactly once, and read the response. -/
def processLX200Command (cmd : List Char) (env : TeensyEnv) : ProcessResult :=
  let localResp := checkForAppSpecificCmds cmd
  if localResp.length ≠ 0 then ⟨localResp, []⟩
  else
    let truncCmd :=
      if cmd = [':', 'S', 'G', '+', '0', '6', '.', '0', '#'] then
        match indexOfChar cmd '.', indexOfChar cmd '#' with
        | some dotIndex, some hashIndex =>
          if dotIndex < hashIndex then cmd.take dotIndex ++ cmd.drop hashIndex
          else cmd
        | _, _ => cmd
      else cmd
    let _hs := handshakeTeensy env
    ⟨readTeensyResponse env.response, [truncCmd]⟩

/-- The literal override reply for `:SC` commands
(`handleLX200Client`, line 260). -/
def plantResponse : List Char := "1Updating Planetary Data#          #".data

/-- Client-visible bytes produced for one completed command: the body of
the `if (c == '#' && receivingCmd)` block of `handleLX200Client`
(lines 237-272).  The empty list means zero bytes are written to the
client socket (the no-response `break` or the `response.length() > 0`
guard failing). -/
def dispatchResponse (lx200Cmd : List Char) (env : TeensyEnv) : List Char :=
  let response := (processLX200Command lx200Cmd env).response
  let response2 :=
    if response = ['1', '#'] ∨ response = ['0', '#'] then response.take 1
    else response
  if isNoResponseCommand lx200Cmd then []
  else if 0 < response2.length then
    let response3 :=
      if ([':', 'S', 'C']).isPrefixOf lx200Cmd then plantResponse else response2
    let response4 := if lx200Cmd = [':', 'Q', '#'] then ['1'] else response3
    response4
  else []

/-- Framing state of `handleLX200Client`: the `receivingCmd` flag and
the `lx200Cmd` accumulator (lines 205-206). -/
structure FramerState where
  receivingCmd : Bool
  lx200Cmd : List Char
deriving DecidableEq

/-- One step of the client byte loop of `handleLX200Client`
(lines 215-239), restricted to its framing effect: the probe byte is
answered outside of framing and leaves the state untouched; a `:` while
not receiving starts a fresh accumulator; every other byte is appended,
and a `#` while receiving emits the accumulated command. -/
def framerStep (st : FramerState) (c : Char) : FramerState × Option (List Char) :=
  if c = probeByte then (st, none)
  else if st.receivingCmd = false ∧ c = ':' then (⟨true, [':']⟩, none)
  else
    let buf := st.lx200Cmd ++ [c]
    if c = '#' ∧ st.receivingCmd = true then (⟨false, buf⟩, some buf)
    else (⟨st.receivingCmd, buf⟩, none)

/-- Run the framer over a byte sequence, collecting every emitted
command in order. -/
def framerRun : FramerState → List Char → FramerState × List (List Char)
  | st, [] => (st, [])
  | st, c :: rest =>
    ((framerRun (framerStep st c).1 rest).1,
     (framerStep st c).2.toList ++ (framerRun (framerStep st c).1 rest).2)

/-- Initial framing state of a fresh connection: not receiving, empty
accumulator (lines 205-206). -/
def initFramer : FramerState := ⟨false, []⟩

/-- Spec-side predicate: the byte sequence contains a span that starts
with `:` and ends with `#`. -/
def hasSpan : List Char → Prop
  | [] => False
  | c :: rest => if c = ':' then '#' ∈ rest else hasSpan rest

end LX200
namespace LX200

/-- Running the framer over a concatenation: states compose and the
emitted commands concatenate. -/
lemma framerRun_append (st : FramerState) (a b : List Char) :
    framerRun st (a ++ b) =
      ((framerRun (framerRun st a).1 b).1,
       (framerRun st a).2 ++ (framerRun (framerRun st a).1 b).2) := by
  induction a generalizing st with
  | nil => simp [framerRun]
  | cons c rest ih => simp [framerRun, ih]

/-- While receiving, the framer emits some command exactly when a `#`
is still to come, whatever the accumulator holds. -/
lemma framerRun_receiving_emits (buf : List Char) (s : List Char) :
    (framerRun ⟨true, buf⟩ s).2 ≠ [] ↔ '#' ∈ s := by
  induction s generalizing buf with
  | nil => simp [framerRun]
  | cons c rest ih =>
    by_cases hp : c = probeByte
    · subst hp
      simp [framerRun, framerStep, ih, probeByte]
    · by_cases hh : c = '#'
      · subst hh
        simp [framerRun, framerStep, hp]
      · have hh' : ¬('#' = c) := fun h => hh h.symm
        simp [framerRun, framerStep, hp, hh, hh', ih]

/-- While not receiving, the framer emits some command exactly when the
remaining bytes contain a `:`-to-`#` span, whatever the accumulator
holds. -/
lemma framerRun_idle_emits (buf : List Char) (s : List Char) :
    (framerRun ⟨false, buf⟩ s).2 ≠ [] ↔ hasSpan s := by
  induction s generalizing buf with
  | nil => simp [framerRun, hasSpan]
  | cons c rest ih =>
    by_cases hp : c = probeByte
    · subst hp
      simp [framerRun, framerStep, ih, hasSpan, probeByte]
    · by_cases hc : c = ':'
      · subst hc
        simp [framerRun, framerStep, hasSpan, probeByte, framerRun_receiving_emits]
      · simp [framerRun, framerStep, hp, hc, ih, hasSpan]

end LX200
namespace LX200

/-- `hasSpan` agrees with the explicit decomposition: some `:` occurs
with a `#` strictly after it. -/
lemma hasSpan_iff (s : List Char) :
    hasSpan s ↔ ∃ pre mid post, s = pre ++ ':' :: (mid ++ '#' :: post) := by
  induction s with
  | nil =>
    simp only [hasSpan, false_iff]
    rintro ⟨pre, mid, post, h⟩
    exact absurd h (by simp)
  | cons c rest ih =>
    by_cases hc : c = ':'
    · subst hc
      simp only [hasSpan, if_pos rfl]
      constructor
      · intro hmem
        obtain ⟨mid, post, rfl⟩ := List.append_of_mem hmem
        exact ⟨[], mid, post, rfl⟩
      · rintro ⟨pre, mid, post, heq⟩
        cases pre with
        | nil =>
          simp only [List.nil_append, List.cons.injEq] at heq
          rw [heq.2]
          simp
        | cons p pre' =>
          simp only [List.cons_append, List.cons.injEq] at heq
          rw [heq.2]
          simp
    · simp only [hasSpan, if_neg hc, ih]
      constructor
      · rintro ⟨pre, mid, post, rfl⟩
        exact ⟨c :: pre, mid, post, rfl⟩
      · rintro ⟨pre, mid, post, heq⟩
        cases pre with
        | nil =>
          simp only [List.nil_append, List.cons.injEq] at heq
          exact absurd heq.1 hc
        | cons p pre' =>
          simp only [List.cons_append, List.cons.injEq] at heq
          exact ⟨pre', mid, post, heq.2⟩

/-- Bytes containing no `:` leave the framer idle and emit nothing:
they only pile up in the (soon to be discarded) accumulator. -/
lemma framerRun_idle_junk (junk : List Char) (hj : ':' ∉ junk) (buf : List Char) :
    ∃ buf2, framerRun ⟨false, buf⟩ junk = (⟨false, buf2⟩, []) := by
  induction junk generalizing buf with
  | nil => exact ⟨buf, rfl⟩
  | cons c rest ih =>
    have hc : c ≠ ':' := fun h => hj (h ▸ List.mem_cons_self c rest)
    have hj' : ':' ∉ rest := fun h => hj (List.mem_cons_of_mem c h)
    by_cases hp : c = probeByte
    · subst hp
      obtain ⟨b2, hb⟩ := ih hj' buf
      exact ⟨b2, by simp [framerRun, framerStep, hb]⟩
    · obtain ⟨b2, hb⟩ := ih hj' (buf ++ [c])
      refine ⟨b2, ?_⟩
      simp [framerRun, framerStep, hp, hc, hb]

/-- When idle, the content of the accumulator is irrelevant to which
commands the framer will emit: the next `:` resets it. -/
lemma framerRun_idle_out_congr (s : List Char) (buf buf' : List Char) :
    (framerRun ⟨false, buf⟩ s).2 = (framerRun ⟨false, buf'⟩ s).2 := by
  induction s generalizing buf buf' with
  | nil => simp [framerRun]
  | cons c rest ih =>
    by_cases hp : c = probeByte
    · subst hp
      simp [framerRun, framerStep, probeByte]
      exact ih buf buf'
    · by_cases hc : c = ':'
      · subst hc
        simp [framerRun, framerStep, probeByte]
      · simp [framerRun, framerStep, hp, hc]
        exact ih (buf ++ [c]) (buf' ++ [c])

end LX200
namespace LX200

/-- C3: a Command is emitted iff the byte sequence contains a span
starting with `:` and ending with `#`; bytes arriving while not
receiving never appear in any dispatched Command (a `:`-free stretch
can be dropped without changing what is emitted); and a `:` arriving
while already accumulating is appended as payload, not a restart. -/
theorem framer_emission_correct (s junk : List Char) (st stRecv : FramerState)
    (hj : ':' ∉ junk) (hst : st.receivingCmd = false)
    (hrecv : stRecv.receivingCmd = true) :
    ((framerRun initFramer s).2 ≠ [] ↔
      ∃ pre mid post, s = pre ++ ':' :: (mid ++ '#' :: post))
    ∧ (framerRun st (junk ++ s)).2 = (framerRun st s).2
    ∧ framerStep stRecv ':' = (⟨true, stRecv.lx200Cmd ++ [':']⟩, none) := by
  refine ⟨?_, ?_, ?_⟩
  · rw [← hasSpan_iff]
    exact framerRun_idle_emits [] s
  · obtain ⟨r, b⟩ := st
    simp only at hst
    subst hst
    rw [framerRun_append]
    obtain ⟨b2, hb⟩ := framerRun_idle_junk junk hj b
    rw [hb]
    simp only [List.nil_append]
    exact framerRun_idle_out_congr s b2 b
  · obtain ⟨r, b⟩ := stRecv
    simp only at hrecv
    subst hrecv
    simp [framerStep, probeByte]

/-- Witness for `framer_emission_correct` at the stream `:a#` prefixed
by junk `x#`, a leftover accumulator `z`, and a receiving state holding
`:a`. -/
theorem framer_emission_correct_witness :
    (((framerRun initFramer [':', 'a', '#']).2 ≠ [] ↔
      ∃ pre mid post,
        [':', 'a', '#'] = pre ++ ':' :: (mid ++ '#' :: post))
    ∧ (framerRun ⟨false, ['z']⟩ (['x', '#'] ++ [':', 'a', '#'])).2 =
        (framerRun ⟨false, ['z']⟩ [':', 'a', '#']).2
    ∧ framerStep ⟨true, [':', 'a']⟩ ':' =
        (⟨true, [':', 'a'] ++ [':']⟩, none)) :=
  framer_emission_correct [':', 'a', '#'] ['x', '#'] ⟨false, ['z']⟩
    ⟨true, [':', 'a']⟩ (by decide) rfl rfl

end LX200
namespace LX200

/-- Commands beginning `:SC` never match the local-answer table. -/
lemma checkForAppSpecificCmds_SC (t : List Char) :
    checkForAppSpecificCmds (':' :: 'S' :: 'C' :: t) = [] := by
  simp [checkForAppSpecificCmds]

/-- Commands beginning `:SC` are not in the no-response set. -/
lemma isNoResponseCommand_SC (t : List Char) :
    isNoResponseCommand (':' :: 'S' :: 'C' :: t) = false := by
  simp [isNoResponseCommand]

/-- Boolean compression never turns a non-empty reply into an empty
one. -/
lemma compress_ne_nil (r : List Char) (hr : r ≠ []) :
    (if r = ['1', '#'] ∨ r = ['0', '#'] then r.take 1 else r) ≠ [] := by
  by_cases h1 : r = ['1', '#']
  · simp [h1]
  · by_cases h0 : r = ['0', '#']
    · simp [h0, h1]
    · simp [h0, h1, hr]

/-- C1 (amended): a `:SC` command whose read-back reply is non-empty is
answered with the fixed planetary-data literal. -/
theorem sc_reply_override (cmd : List Char) (env : TeensyEnv)
    (hpre : ([':', 'S', 'C']).isPrefixOf cmd = true)
    (hterm : cmd.getLast? = some '#')
    (hresp : readTeensyResponse env.response ≠ []) :
    dispatchResponse cmd env = plantResponse := by
  rw [ List.isPrefixOf_iff_prefix] at hpre
  obtain ⟨t, rfl⟩ := hpre
  simp only [List.cons_append, List.nil_append] at *
  simp only [dispatchResponse, processLX200Command, checkForAppSpecificCmds_SC,
    isNoResponseCommand_SC, List.length_nil, ne_eq, not_true_eq_false,
    if_false, Bool.false_eq_true]
  have hp : 0 < (if readTeensyResponse env.response = ['1', '#'] ∨
      readTeensyResponse env.response = ['0', '#'] then
      List.take 1 (readTeensyResponse env.response)
    else readTeensyResponse env.response).length :=
    List.length_pos.mpr (compress_ne_nil _ hresp)
  rw [if_pos hp]
  simp [List.isPrefixOf]

end LX200
namespace LX200

/-- Witness for `sc_reply_override`: `:SC1#` with Teensy reply `1#`. -/
theorem sc_reply_override_witness :
    dispatchResponse [':', 'S', 'C', '1', '#'] ⟨true, ['1', '#']⟩ = plantResponse :=
  sc_reply_override [':', 'S', 'C', '1', '#'] ⟨true, ['1', '#']⟩
    (by decide) (by decide) (by decide)

/-- Counterexample to C1 as stated: when the Teensy sends nothing (the
first-byte timeout), a `:SC` command produces zero client bytes, not
the planetary-data literal. -/
theorem sc_reply_not_unconditional :
    dispatchResponse [':', 'S', 'C', '1', '#'] ⟨true, []⟩ = [] ∧
    plantResponse ≠ [] := by decide

/-- C7 (amended): `:Q#` is answered with the literal `1` whenever the
read-back reply is non-empty. -/
theorem q_reply_override (env : TeensyEnv)
    (hresp : readTeensyResponse env.response ≠ []) :
    dispatchResponse [':', 'Q', '#'] env = ['1'] := by
  have happ : checkForAppSpecificCmds [':', 'Q', '#'] = [] := by decide
  have hno : isNoResponseCommand [':', 'Q', '#'] = false := by decide
  simp only [dispatchResponse, processLX200Command, happ, hno, List.length_nil,
    ne_eq, not_true_eq_false, if_false, Bool.false_eq_true]
  have hp : 0 < (if readTeensyResponse env.response = ['1', '#'] ∨
      readTeensyResponse env.response = ['0', '#'] then
      List.take 1 (readTeensyResponse env.response)
    else readTeensyResponse env.response).length :=
    List.length_pos.mpr (compress_ne_nil _ hresp)
  rw [if_pos hp]
  simp

/-- Witness for `q_reply_override`: the controller answers a bare `#`,
exactly the situation the source comments describe. -/
theorem q_reply_override_witness :
    dispatchResponse [':', 'Q', '#'] ⟨true, ['#']⟩ = ['1'] :=
  q_reply_override ⟨true, ['#']⟩ (by decide)

/-- Counterexample to C7 as stated: when the Teensy sends nothing, the
`:Q#` command produces zero client bytes, not the literal `1`. -/
theorem q_reply_not_unconditional :
    dispatchResponse [':', 'Q', '#'] ⟨true, []⟩ = [] ∧
    (['1'] : List Char) ≠ [] := by decide

/-- C2: every command in the no-response set produces zero client
bytes whatever the Teensy answers, while still being printed to the
Teensy serial port unchanged. -/
theorem noResponse_suppressed (cmd : List Char) (env : TeensyEnv)
    (h : isNoResponseCommand cmd = true) :
    dispatchResponse cmd env = [] ∧
    (processLX200Command cmd env).teensyWrites = [cmd] := by
  simp only [isNoResponseCommand, Bool.or_eq_true, decide_eq_true_eq, or_assoc] at h
  rcases h with rfl | rfl | rfl | rfl | rfl | rfl | rfl | rfl | rfl | rfl |
    rfl | rfl | rfl | rfl | rfl <;>
    exact ⟨by simp [dispatchResponse, processLX200Command, checkForAppSpecificCmds,
        isNoResponseCommand],
      by simp [processLX200Command, checkForAppSpecificCmds]⟩

/-- Witness for `noResponse_suppressed`: `:Me#` with Teensy reply
`1#`. -/
theorem noResponse_suppressed_witness :
    dispatchResponse [':', 'M', 'e', '#'] ⟨true, ['1', '#']⟩ = [] ∧
    (processLX200Command [':', 'M', 'e', '#'] ⟨true, ['1', '#']⟩).teensyWrites =
      [[':', 'M', 'e', '#']] :=
  noResponse_suppressed [':', 'M', 'e', '#'] ⟨true, ['1', '#']⟩ (by decide)

end LX200
namespace LX200

/-- C4 (amended): for a forwarded command outside the no-response set
that is neither a `:SC` command nor `:Q#`, the reply `0#` or `1#` is
compressed to `0` or `1` and every other reply (the empty one included)
reaches the client unmodified. -/
theorem boolean_compression_passthrough (cmd : List Char) (env : TeensyEnv)
    (h1 : checkForAppSpecificCmds cmd = [])
    (h2 : isNoResponseCommand cmd = false)
    (h3 : ([':', 'S', 'C']).isPrefixOf cmd = false)
    (h4 : cmd ≠ [':', 'Q', '#']) :
    dispatchResponse cmd env =
      (if readTeensyResponse env.response = ['0', '#'] then ['0']
       else if readTeensyResponse env.response = ['1', '#'] then ['1']
       else readTeensyResponse env.response) := by
  simp only [dispatchResponse, processLX200Command, h1, List.length_nil, ne_eq,
    not_true_eq_false, if_false, h2, Bool.false_eq_true, h3, if_neg h4]
  by_cases ha : readTeensyResponse env.response = ['1', '#']
  · simp [ha]
  · by_cases hb : readTeensyResponse env.response = ['0', '#']
    · simp [ha, hb]
    · by_cases hc : readTeensyResponse env.response = []
      · simp [ha, hb, hc]
      · simp [ha, hb, hc, List.length_pos.mpr hc]

/-- Witness for `boolean_compression_passthrough`: `:GR#` with Teensy
reply `ab#`. -/
theorem boolean_compression_passthrough_witness :
    dispatchResponse [':', 'G', 'R', '#'] ⟨true, ['a', 'b', '#']⟩ =
      (if readTeensyResponse ['a', 'b', '#'] = ['0', '#'] then ['0']
       else if readTeensyResponse ['a', 'b', '#'] = ['1', '#'] then ['1']
       else readTeensyResponse ['a', 'b', '#']) :=
  boolean_compression_passthrough [':', 'G', 'R', '#'] ⟨true, ['a', 'b', '#']⟩
    (by decide) (by decide) (by decide) (by decide)

/-- Counterexample to C4 as stated: the reply `0#` to the no-response
command `:Me#` is not delivered as `0`; the client receives nothing. -/
theorem boolean_compression_not_universal :
    dispatchResponse [':', 'M', 'e', '#'] ⟨true, ['0', '#']⟩ = [] ∧
    (['0'] : List Char) ≠ [] := by decide

/-- C5: with no Teensy byte inside the 2300 ms first-byte window, the
response reader returns the empty string, a forwarded command produces
zero client bytes, and the framing state left behind is as good as a
fresh one: whatever sits in the stale accumulator, the framer emits
exactly the same commands as from the initial state, so repeating the
command later behaves identically. -/
theorem firstByte_timeout_empty (cmd : List Char) (env : TeensyEnv)
    (s buf : List Char)
    (hfwd : checkForAppSpecificCmds cmd = [])
    (hto : env.response = []) :
    FIRST_BYTE_TIMEOUT = 2300 ∧
    readTeensyResponse env.response = [] ∧
    dispatchResponse cmd env = [] ∧
    (framerRun ⟨false, buf⟩ s).2 = (framerRun initFramer s).2 := by
  have hR : readTeensyResponse env.response = [] := by
    simp [hto, readTeensyResponse]
  refine ⟨rfl, hR, ?_, framerRun_idle_out_congr s buf []⟩
  simp only [dispatchResponse, processLX200Command, hfwd, List.length_nil, ne_eq,
    not_true_eq_false, if_false, hR]
  by_cases hn : isNoResponseCommand cmd
  · simp [hn]
  · simp [hn]

/-- Witness for `firstByte_timeout_empty`: `:GR#` against a silent
Teensy, with stream `:a#` and a stale accumulator `x`. -/
theorem firstByte_timeout_empty_witness :
    FIRST_BYTE_TIMEOUT = 2300 ∧
    readTeensyResponse (TeensyEnv.mk true []).response = [] ∧
    dispatchResponse [':', 'G', 'R', '#'] ⟨true, []⟩ = [] ∧
    (framerRun ⟨false, ['x']⟩ [':', 'a', '#']).2 =
      (framerRun initFramer [':', 'a', '#']).2 :=
  firstByte_timeout_empty [':', 'G', 'R', '#'] ⟨true, []⟩ [':', 'a', '#'] ['x']
    (by decide) rfl

/-- C6: when the acknowledgment byte does not arrive, the handshake
reports a timeout (the 500 ms `TEENSY_ACK_TIMEOUT`), and the caller
still prints exactly one command string to the Teensy — the same one it
would print had the acknowledgment arrived. -/
theorem handshake_fail_open (cmd : List Char) (resp : List Char)
    (hfwd : checkForAppSpecificCmds cmd = []) :
    TEENSY_ACK_TIMEOUT = 500 ∧
    handshakeTeensy ⟨false, resp⟩ = HandshakeOutcome.timedOut ∧
    (processLX200Command cmd ⟨false, resp⟩).teensyWrites.length = 1 ∧
    (processLX200Command cmd ⟨false, resp⟩).teensyWrites =
      (processLX200Command cmd ⟨true, resp⟩).teensyWrites := by
  refine ⟨rfl, rfl, ?_, ?_⟩ <;> simp [processLX200Command, hfwd]

/-- Witness for `handshake_fail_open`: the query `:GR#` with a silent
Teensy. -/
theorem handshake_fail_open_witness :
    TEENSY_ACK_TIMEOUT = 500 ∧
    handshakeTeensy ⟨false, []⟩ = HandshakeOutcome.timedOut ∧
    (processLX200Command [':', 'G', 'R', '#'] ⟨false, []⟩).teensyWrites.length = 1 ∧
    (processLX200Command [':', 'G', 'R', '#'] ⟨false, []⟩).teensyWrites =
      (processLX200Command [':', 'G', 'R', '#'] ⟨true, []⟩).teensyWrites :=
  handshake_fail_open [':', 'G', 'R', '#'] [] (by decide)

/-- C8: `:SG+06.0#` is printed to the Teensy as `:SG+06#`, whatever the
Teensy environment. -/
theorem sg_timezone_truncated (env : TeensyEnv) :
    (processLX200Command [':', 'S', 'G', '+', '0', '6', '.', '0', '#'] env).teensyWrites =
      [[':', 'S', 'G', '+', '0', '6', '#']] := rfl

/-- C10 (amended): the timezone quirk rewrites only the exact command
`:SG+06.0#`; every other command that is not answered from the local
table is printed to the Teensy byte-for-byte unchanged. -/
theorem quirk_only_sg (cmd : List Char) (env : TeensyEnv)
    (hsg : cmd ≠ [':', 'S', 'G', '+', '0', '6', '.', '0', '#'])
    (hfwd : checkForAppSpecificCmds cmd = []) :
    (processLX200Command cmd env).teensyWrites = [cmd] := by
  simp [processLX200Command, hfwd, hsg]

/-- Witness for `quirk_only_sg`: the other decimal timezone offset
`:SG+05.5#` goes through unchanged. -/
theorem quirk_only_sg_witness :
    (processLX200Command [':', 'S', 'G', '+', '0', '5', '.', '5', '#'] ⟨true, []⟩).teensyWrites =
      [[':', 'S', 'G', '+', '0', '5', '.', '5', '#']] :=
  quirk_only_sg [':', 'S', 'G', '+', '0', '5', '.', '5', '#'] ⟨true, []⟩
    (by decide) (by decide)

/-- Counterexample to C10 as stated: the local-answer command `:GVP#`
is never written to the Teensy at all, so it is not forwarded
unchanged. -/
theorem quirk_claim_fails_on_local :
    (processLX200Command [':', 'G', 'V', 'P', '#'] ⟨true, []⟩).teensyWrites = [] ∧
    ([] : List (List Char)) ≠ [[':', 'G', 'V', 'P', '#']] := by decide

/-- Accumulation invariant behind C9: starting from a hash-free
accumulator, the loop result has all its `#`-free prefix followed by
either nothing or a single final `#`. -/
lemma readTeensyLoop_hash (input : List Char) (acc : List Char)
    (hacc : '#' ∉ acc) :
    (readTeensyLoop input acc).dropWhile (fun c => c != '#') = [] ∨
    (readTeensyLoop input acc).dropWhile (fun c => c != '#') = ['#'] := by
  induction input generalizing acc with
  | nil =>
    left
    rw [List.dropWhile_eq_nil_iff]
    intro x hx
    simp only [bne_iff_ne, ne_eq]
    exact fun h => hacc (h ▸ hx)
  | cons rc rest ih =>
    by_cases hnoise : rc = 'K' ∨ rc = '\n' ∨ rc = '\r'
    · simpa [readTeensyLoop, hnoise] using ih acc hacc
    · by_cases hh : rc = '#'
      · right
        subst hh
        have hpos : ∀ a ∈ acc, (fun c => c != '#') a = true := by
          intro a ha
          simp only [bne_iff_ne, ne_eq]
          exact fun h => hacc (h ▸ ha)
        simp [readTeensyLoop, hnoise, List.dropWhile_append_of_pos hpos,
          List.dropWhile]
      · have hacc' : '#' ∉ acc ++ [rc] := by
          intro hmem
          rcases List.mem_append.mp hmem with hm | hm
          · exact hacc hm
          · simp at hm
            exact hh hm.symm
        simpa [readTeensyLoop, hnoise, hh] using ih (acc ++ [rc]) hacc'

/-- Characters surviving `takeWhile (c != '#')` are not `#`, so the
count of `#` in the whole string is that of the dropped tail. -/
lemma count_hash_le_one (r : List Char)
    (h : r.dropWhile (fun c => c != '#') = [] ∨
         r.dropWhile (fun c => c != '#') = ['#']) :
    r.count '#' ≤ 1 := by
  have hsplit := List.takeWhile_append_dropWhile (p := fun c => c != '#') (l := r)
  have htake : (r.takeWhile (fun c => c != '#')).count '#' = 0 := by
    rw [List.count_eq_zero]
    intro hmem
    have := List.mem_takeWhile_imp hmem
    simp at this
  calc r.count '#'
      = ((r.takeWhile (fun c => c != '#')) ++
          (r.dropWhile (fun c => c != '#'))).count '#' := by rw [hsplit]
    _ ≤ 1 := by
        rcases h with h | h <;> simp [List.count_append, htake, h, List.count_cons]

/-- C9: every string the response reader returns contains `#` at most
once, and when `#` occurs it is the final character (the string is a
`#`-free prefix followed by nothing or by one final `#`). -/
theorem response_hash_final (input : List Char) :
    (readTeensyResponse input).count '#' ≤ 1 ∧
    ((readTeensyResponse input).dropWhile (fun c => c != '#') = [] ∨
     (readTeensyResponse input).dropWhile (fun c => c != '#') = ['#']) := by
  have hmain : (readTeensyResponse input).dropWhile (fun c => c != '#') = [] ∨
      (readTeensyResponse input).dropWhile (fun c => c != '#') = ['#'] := by
    unfold readTeensyResponse
    by_cases h : input = []
    · simp [h, List.dropWhile]
    · simpa [h] using readTeensyLoop_hash input [] (by simp)
  exact ⟨count_hash_le_one _ hmain, hmain⟩

end LX200
